import Mathlib

/-!
Verification of the Pluto Hub bank/lobby core: a shallow embedding of the
monetary primitives (`packages/shared/src/types/index.ts`), the domain
entities (`packages/bank/src/domain/entities`), the contract engine use
cases (`ExecuteContract`, `SettleContract`), the lobby join flow and the
session-token codec, together with theorems settling the spec claims.

JS `bigint` amounts are embedded as `Int` (division/modulo truncate toward
zero, `Int.tdiv`/`Int.tmod`); `Date` values as epoch milliseconds (`Int`);
thrown business errors as `Except`; repository-backed state as explicit
record-of-lists state threaded through the use-case functions, which return
the (possibly updated) state alongside the outcome so that the absence of
side effects on failure is a provable statement.
-/

namespace Pluto

/-- Shallow embedding of `distributeEvenly` from
`packages/shared/src/types/index.ts`: split `amount` among `count` winners,
remainder going one unit each to the first winners. JS bigint division
truncates toward zero, which `Int.tdiv` mirrors. -/
def distributeEvenly (amount : Int) (count : Nat) : List Int :=
  if count = 0 then []
  else
    let base := amount.tdiv count
    let remainder := amount.tmod count
    (List.range count).map (fun (i : Nat) => if (i : Int) < remainder then base + 1 else base)

/-- Embedding of the `Contract` domain entity
(`packages/bank/src/domain/entities/Contract.ts`). Monetary amounts are JS
bigints, embedded as `Int`; `platformFee` is an integer percentage 0-100
(the constructor argument `platformFee: number // Percentage 0-100`, and
`BigInt(this.platformFee)` requires an integer). Dates are epoch
milliseconds. -/
structure Contract where
  id : String
  gameId : String
  gameName : String
  name : String
  entryFee : Int
  platformFee : Nat
  minPlayers : Nat
  maxPlayers : Nat
  ttlSeconds : Nat
  isActive : Bool
  createdAt : Int
deriving DecidableEq

/-- Embeds `Contract.calculateTotalPot`: `entryFee * BigInt(playerCount)`. -/
def Contract.calculateTotalPot (c : Contract) (playerCount : Nat) : Int :=
  c.entryFee * playerCount

/-- Embeds `Contract.calculatePlatformFee`: `(pot * BigInt(this.platformFee)) / 100n`;
JS bigint division truncates toward zero (`Int.tdiv`). -/
def Contract.calculatePlatformFee (c : Contract) (pot : Int) : Int :=
  (pot * c.platformFee).tdiv 100

/-- Embeds `Contract.calculatePrizePool`: `pot - this.calculatePlatformFee(pot)`. -/
def Contract.calculatePrizePool (c : Contract) (pot : Int) : Int :=
  pot - c.calculatePlatformFee pot

/-- Embeds `Contract.isValidPlayerCount`: `count >= minPlayers && count <= maxPlayers`. -/
def Contract.isValidPlayerCount (c : Contract) (count : Nat) : Bool :=
  c.minPlayers ≤ count && count ≤ c.maxPlayers

/-- Embedding of the `User` domain entity (balance-bearing part). Balances
are JS bigints, embedded as `Int`; operations that `throw` are embedded as
`Except`, leaving the user state unchanged on failure exactly as the source
checks its guard before mutating. -/
structure User where
  id : String
  firebaseUid : String
  displayName : String
  balance : Int
  lockedBalance : Int
  createdAt : Int
deriving DecidableEq

/-- Embeds `User.availableBalance`: `balance - lockedBalance`. -/
def User.availableBalance (u : User) : Int := u.balance - u.lockedBalance

/-- Embeds `User.canAfford`: `availableBalance >= amount`. -/
def User.canAfford (u : User) (amount : Int) : Bool :=
  decide (amount ≤ u.availableBalance)

/-- Embeds `User.lockFunds`: throws when `!canAfford(amount)`, else
`lockedBalance += amount`. -/
def User.lockFunds (u : User) (amount : Int) : Except String User :=
  if u.canAfford amount = false then .error "Insufficient funds"
  else .ok { u with lockedBalance := u.lockedBalance + amount }

/-- Embeds `User.unlockFunds`: throws when `amount > lockedBalance`, else
`lockedBalance -= amount`. -/
def User.unlockFunds (u : User) (amount : Int) : Except String User :=
  if amount > u.lockedBalance then .error "Cannot unlock more than locked"
  else .ok { u with lockedBalance := u.lockedBalance - amount }

/-- Embeds `User.deductLockedFunds`: throws when `amount > lockedBalance`, else
`lockedBalance -= amount; balance -= amount`. -/
def User.deductLockedFunds (u : User) (amount : Int) : Except String User :=
  if amount > u.lockedBalance then .error "Cannot deduct more than locked"
  else .ok { u with lockedBalance := u.lockedBalance - amount,
                    balance := u.balance - amount }

/-- Embeds `User.addWinnings`: unconditional `balance += amount`. -/
def User.addWinnings (u : User) (amount : Int) : User :=
  { u with balance := u.balance + amount }

/-- Embeds `User.deposit`: throws when `amount <= 0`, else `balance += amount`. -/
def User.deposit (u : User) (amount : Int) : Except String User :=
  if amount ≤ 0 then .error "Deposit amount must be positive"
  else .ok { u with balance := u.balance + amount }

/-- Embeds `User.withdraw`: throws when `!canAfford(amount)`, else
`balance -= amount`. -/
def User.withdraw (u : User) (amount : Int) : Except String User :=
  if u.canAfford amount = false then .error "Insufficient funds for withdrawal"
  else .ok { u with balance := u.balance - amount }

/-- The balance invariant of the spec: `balance >= 0` and
`0 <= lockedBalance <= balance`. -/
def UserInvariant (u : User) : Prop :=
  0 ≤ u.balance ∧ 0 ≤ u.lockedBalance ∧ u.lockedBalance ≤ u.balance

instance (u : User) : Decidable (UserInvariant u) := by
  unfold UserInvariant; infer_instance

/-- A fallible balance write either fails (state untouched) or yields a
state satisfying the invariant. -/
def ExceptInv (r : Except String User) : Prop :=
  match r with
  | .ok u => UserInvariant u
  | .error _ => True

instance (r : Except String User) : Decidable (ExceptInv r) := by
  unfold ExceptInv; cases r <;> infer_instance

/-! Part 2: bank state model -- ledger, sessions, use cases. -/

/-- Embeds `LedgerEntryType` from the Prisma schema / shared types. -/
inductive LedgerType where
  | lock
  | unlock
  | win
  | lose
  | fee
  | deposit
  | withdraw
deriving DecidableEq

/-- A ledger row as built by the use cases (`LedgerEntryData` plus
`balanceAfter`). -/
structure LedgerEntry where
  userId : String
  type : LedgerType
  amount : Int
  balanceAfter : Int
  description : String
  sessionId : Option String
deriving DecidableEq

/-- Embeds `GameSessionStatus`. -/
inductive SessionStatus where
  | pending
  | active
  | settled
  | cancelled
  | expired
deriving DecidableEq

/-- Embeds `GameSessionPlayer` (`packages/bank/src/domain/entities/GameSession.ts`). -/
structure SessionPlayer where
  userId : String
  displayName : String
  amountLocked : Int
  isWinner : Bool
  winAmount : Int
deriving DecidableEq

/-- Embeds `GameSession` (`packages/bank/src/domain/entities/GameSession.ts`). -/
structure GameSession where
  id : String
  contractId : String
  status : SessionStatus
  totalPot : Int
  expiresAt : Int
  settledAt : Option Int
  players : List SessionPlayer
deriving DecidableEq

/-- Embeds `GameSession.isExpired`: `new Date() > this.expiresAt`, with the current
time passed explicitly. -/
def GameSession.isExpired (s : GameSession) (now : Int) : Bool :=
  decide (now > s.expiresAt)

/-- Embeds `GameSession.getPlayer`: `players.find(p => p.userId === userId)`. -/
def GameSession.getPlayer (s : GameSession) (userId : String) : Option SessionPlayer :=
  s.players.find? (fun p => p.userId == userId)

/-- The repository-backed state the bank use cases read and write. -/
structure BankState where
  users : List User
  contracts : List Contract
  sessions : List GameSession
  ledger : List LedgerEntry
deriving DecidableEq

/-- The closed business-error taxonomy raised by the embedded use cases
(`packages/shared/src/errors/index.ts`). Each constructor corresponds to an
error class of the source. -/
inductive PlutoErr where
  | contractNotFound (id : String)
  | gameNotActive
  | validationError (msg : String)
  | insufficientFunds (required available : Int)
  | sessionNotFound (id : String)
  | sessionAlreadySettled (id : String)
  | sessionExpired (id : String)
  | unauthorized
  | alreadyInLobby
  | lobbyFull
  | internalError (msg : String)
deriving DecidableEq

/-- The stable `code` string each error class carries
(`packages/shared/src/errors/index.ts`; subclasses of `ConflictError` and
`NotFoundError` inherit the parent's code). -/
def PlutoErr.code : PlutoErr → String
  | .contractNotFound _ => "NOT_FOUND"
  | .gameNotActive => "GAME_NOT_ACTIVE"
  | .validationError _ => "VALIDATION_ERROR"
  | .insufficientFunds _ _ => "INSUFFICIENT_FUNDS"
  | .sessionNotFound _ => "NOT_FOUND"
  | .sessionAlreadySettled _ => "CONFLICT"
  | .sessionExpired _ => "SESSION_EXPIRED"
  | .unauthorized => "UNAUTHORIZED"
  | .alreadyInLobby => "CONFLICT"
  | .lobbyFull => "LOBBY_FULL"
  | .internalError _ => "INTERNAL_ERROR"

/-- Embeds `contractRepository.findContractById`. -/
def findContractById (contracts : List Contract) (id : String) : Option Contract :=
  contracts.find? (fun c => c.id == id)

/-- Embeds `userRepository.findByFirebaseUids`: the stored users whose
`firebaseUid` is among the requested uids. -/
def findByFirebaseUids (users : List User) (uids : List String) : List User :=
  users.filter (fun u => uids.contains u.firebaseUid)

/-- Embeds `userRepository.findByIds`. -/
def findByIds (users : List User) (ids : List String) : List User :=
  users.filter (fun u => ids.contains u.id)

/-- Embeds `userRepository.updateBalance`: replace the stored row for `u.id`. -/
def updateUser (users : List User) (u : User) : List User :=
  users.map (fun v => if v.id == u.id then u else v)

/-- Embeds `sessionRepository.findById`. -/
def findSessionById (sessions : List GameSession) (id : String) : Option GameSession :=
  sessions.find? (fun s => s.id == id)

/-- Replace the stored session row for `s.id`. -/
def updateSession (sessions : List GameSession) (s : GameSession) : List GameSession :=
  sessions.map (fun t => if t.id == s.id then s else t)

/-- The summary `ExecuteContractUseCase.execute` returns (session token
minting is the codec's concern, modelled separately). Players are
`(id, displayName, amountLocked)` triples. -/
structure ExecuteResult where
  sessionId : String
  players : List (String × String × Int)
  totalPot : Int
  expiresAt : Int
deriving DecidableEq

/-- The per-user body of step 7 of `ExecuteContractUseCase.execute`:
`user.lockFunds(entryFee)` for each user in order, failing like the source
would throw. -/
def lockAllUsers (entryFee : Int) : List User → Except String (List User)
  | [] => .ok []
  | u :: rest =>
    match u.lockFunds entryFee with
    | .error e => .error e
    | .ok u1 =>
      match lockAllUsers entryFee rest with
      | .error e => .error e
      | .ok rest1 => .ok (u1 :: rest1)

/-- Steps 5-8 of `ExecuteContractUseCase.execute`, reached only after every
precondition passed: create the session, lock each user's entry fee, append
the `LOCK` ledger batch and return the session summary. -/
def executeValidated (st : BankState) (now : Int) (newSessionId : String)
    (contract : Contract) (users : List User) :
    Except PlutoErr ExecuteResult × BankState :=
  let entryFee := contract.entryFee
  let totalPot := contract.calculateTotalPot users.length
  let expiresAt := now + contract.ttlSeconds * 1000
  let session : GameSession :=
    { id := newSessionId, contractId := contract.id, status := .pending,
      totalPot := totalPot, expiresAt := expiresAt, settledAt := none,
      players := users.map (fun u =>
        { userId := u.id, displayName := u.displayName,
          amountLocked := entryFee, isWinner := false, winAmount := 0 }) }
  match lockAllUsers entryFee users with
  | .error e => (.error (.internalError e), st)
  | .ok lockedUsers =>
    let entries := lockedUsers.map (fun u =>
      ({ userId := u.id, type := .lock, amount := entryFee,
         balanceAfter := u.balance,
         description := "Locked for " ++ contract.gameName ++ ": " ++ contract.name,
         sessionId := some newSessionId } : LedgerEntry))
    let st1 : BankState :=
      { st with users := lockedUsers.foldl updateUser st.users,
                sessions := st.sessions ++ [session],
                ledger := st.ledger ++ entries }
    (.ok { sessionId := newSessionId,
           players := session.players.map (fun p =>
             (p.userId, p.displayName, p.amountLocked)),
           totalPot := totalPot, expiresAt := expiresAt }, st1)

/-- Embedding of `ExecuteContractUseCase.execute`
(`packages/bank/src/application/use-cases/ExecuteContract.ts`). `now` is the
current epoch-millisecond time and `newSessionId` the id the session store
assigns. Every `throw` before the first repository write returns the state
unchanged, exactly as in the source where all validations precede any
mutation. -/
def executeContract (st : BankState) (now : Int) (newSessionId : String)
    (contractId : String) (playerFirebaseUids : List String) :
    Except PlutoErr ExecuteResult × BankState :=
  match findContractById st.contracts contractId with
  | none => (.error (.contractNotFound contractId), st)
  | some contract =>
    if contract.isActive = false then (.error .gameNotActive, st)
    else
      let playerCount := playerFirebaseUids.length
      if contract.isValidPlayerCount playerCount = false then
        (.error (.validationError "Invalid player count"), st)
      else
        let users := findByFirebaseUids st.users playerFirebaseUids
        if users.length ≠ playerCount then
          (.error (.validationError "Users not found"), st)
        else
          let entryFee := contract.entryFee
          match users.find? (fun u => ! u.canAfford entryFee) with
          | some u => (.error (.insufficientFunds entryFee u.availableBalance), st)
          | none => executeValidated st now newSessionId contract users

/-- A `PlayerResult` item of the Settle request body: `winAmount` is the
optional explicit override. -/
structure PlayerResult where
  playerId : String
  isWinner : Bool
  winAmount : Option Int
deriving DecidableEq

/-- A settled winner as reported in `SettleContractResult.winners`. -/
structure SettledWinner where
  id : String
  displayName : String
  amountWon : Int
deriving DecidableEq

/-- Embeds `SettleContractResult`. -/
structure SettleResult where
  sessionId : String
  winners : List SettledWinner
  platformFeeCollected : Int
deriving DecidableEq

/-- One row of the computed `winnerDistribution`. -/
structure WinnerShare where
  playerId : String
  amount : Int
deriving DecidableEq

/-- Step 7 of `SettleContractUseCase.execute`: for each found user deduct
the locked entry stake (`LOSE` row), credit winners (`WIN` row), collect the
updated user rows, ledger rows and winner summaries. A missing session
player or an over-deduction would throw in the source (non-null assertion /
`deductLockedFunds` guard); both are embedded as internal errors. -/
def settleUsers (session : GameSession) (winnerDistribution : List WinnerShare) :
    List User → Except PlutoErr (List User × List LedgerEntry × List SettledWinner)
  | [] => .ok ([], [], [])
  | u :: rest =>
    match session.getPlayer u.id with
    | none => .error (.internalError "session player missing")
    | some player =>
      match u.deductLockedFunds player.amountLocked with
      | .error e => .error (.internalError e)
      | .ok u1 =>
        let loseEntry : LedgerEntry :=
          { userId := u.id, type := .lose, amount := player.amountLocked,
            balanceAfter := u1.balance, description := "Game entry fee deducted",
            sessionId := some session.id }
        match winnerDistribution.find? (fun w => w.playerId == u.id) with
        | some winnerInfo =>
          let u2 := u1.addWinnings winnerInfo.amount
          let winEntry : LedgerEntry :=
            { userId := u.id, type := .win, amount := winnerInfo.amount,
              balanceAfter := u2.balance, description := "Game winnings",
              sessionId := some session.id }
          match settleUsers session winnerDistribution rest with
          | .error e => .error e
          | .ok (us, es, ws) =>
            .ok (u2 :: us, loseEntry :: winEntry :: es,
                 { id := u.id, displayName := u.displayName,
                   amountWon := winnerInfo.amount } :: ws)
        | none =>
          match settleUsers session winnerDistribution rest with
          | .error e => .error e
          | .ok (us, es, ws) => .ok (u1 :: us, loseEntry :: es, ws)

/-- Steps 4-9 of `SettleContractUseCase.execute`, reached only after the
token, session and status/expiry guards passed: coverage check, contract
lookup, fee and distribution computation, per-user settlement, ledger append
and session terminalisation. -/
def settleValidated (st : BankState) (now : Int) (session : GameSession)
    (results : List PlayerResult) :
    Except PlutoErr SettleResult × BankState :=
  let sessionPlayerIds := session.players.map (fun p => p.userId)
  let resultPlayerIds := results.map (fun r => r.playerId)
  match sessionPlayerIds.find? (fun pid => ! resultPlayerIds.contains pid) with
  | some pid =>
    (.error (.validationError ("Missing result for player " ++ pid)), st)
  | none =>
    match findContractById st.contracts session.contractId with
    | none => (.error (.validationError "Contract not found"), st)
    | some contract =>
      let platformFee := contract.calculatePlatformFee session.totalPot
      let prizePool := contract.calculatePrizePool session.totalPot
      let winners := results.filter (fun r => r.isWinner)
      if winners.length = 0 then
        (.error (.validationError "At least one winner required"), st)
      else
        let winAmounts := distributeEvenly prizePool winners.length
        let winnerDistribution := (winners.zip winAmounts).map
          (fun wa => ({ playerId := wa.1.playerId,
                        amount := wa.1.winAmount.getD wa.2 } : WinnerShare))
        let users := findByIds st.users sessionPlayerIds
        match settleUsers session winnerDistribution users with
        | .error e => (.error e, st)
        | .ok (updatedUsers, entries, settledWinners) =>
          let settledPlayers := session.players.map (fun p =>
            match results.find? (fun r => r.playerId == p.userId) with
            | some r =>
              let wa :=
                ((winnerDistribution.find?
                    (fun w => w.playerId == p.userId)).map
                  (fun w => w.amount)).getD 0
              { p with isWinner := r.isWinner, winAmount := wa }
            | none => p)
          let newSession : GameSession :=
            { session with status := .settled, settledAt := some now,
                           players := settledPlayers }
          let st1 : BankState :=
            { st with users := updatedUsers.foldl updateUser st.users,
                      sessions := updateSession st.sessions newSession,
                      ledger := st.ledger ++ entries }
          (.ok { sessionId := session.id, winners := settledWinners,
                 platformFeeCollected := platformFee }, st1)

/-- Embedding of `SettleContractUseCase.execute`. `payloadSessionId` is the
outcome of `verifySessionToken` on the request token (`none` when the token
fails to verify), carrying the token's `sessionId`; `now` is the current
epoch-millisecond time. All validations precede any repository write, so
every failure returns the state unchanged. -/
def settleContract (st : BankState) (now : Int)
    (payloadSessionId : Option String) (results : List PlayerResult) :
    Except PlutoErr SettleResult × BankState :=
  match payloadSessionId with
  | none => (.error (.validationError "Invalid or expired session token"), st)
  | some sid =>
    match findSessionById st.sessions sid with
    | none => (.error (.sessionNotFound sid), st)
    | some session =>
      if session.status = .settled then
        (.error (.sessionAlreadySettled session.id), st)
      else if session.status = .cancelled then
        (.error (.validationError "Session is cancelled"), st)
      else if session.status = .expired then
        (.error (.validationError "Session is expired"), st)
      else if session.isExpired now then
        (.error (.sessionExpired session.id), st)
      else settleValidated st now session results

/-! Part 3: lobby join flow. -/

/-- Embeds `LobbyStatus`. -/
inductive LobbyStatus where
  | waiting
  | starting
  | inGame
  | closed
deriving DecidableEq

/-- The `Lobby` entity restricted to the fields the join flow reads; the
player list holds user ids, and min/max player bounds come from the lobby's
contract as the repository joins them in. -/
structure Lobby where
  id : String
  contractId : String
  status : LobbyStatus
  minPlayers : Nat
  maxPlayers : Nat
  players : List String
deriving DecidableEq

/-- Embeds `Lobby.isFull`: `players.length >= maxPlayers`. -/
def Lobby.isFull (l : Lobby) : Bool :=
  decide (l.maxPlayers ≤ l.players.length)

/-- Embeds `Lobby.isReady`: `players.length >= minPlayers`. -/
def Lobby.isReady (l : Lobby) : Bool :=
  decide (l.minPlayers ≤ l.players.length)

/-- The state the lobby flow reads and writes: lobby rows plus the user and
contract stores it consults read-only. -/
structure LobbyWorld where
  lobbies : List Lobby
  users : List User
  contracts : List Contract
deriving DecidableEq

/-- Embeds `PrismaLobbyRepository.findByUserId`: the first lobby-player row for the
user, hidden when that lobby is `CLOSED` or `IN_GAME`. -/
def findLobbyByUserId (w : LobbyWorld) (userId : String) : Option Lobby :=
  match w.lobbies.find? (fun l => l.players.contains userId) with
  | some l =>
    if l.status = .closed ∨ l.status = .inGame then none else some l
  | none => none

/-- Embeds `PrismaLobbyRepository.getOrCreateWaitingLobby`: reuse the first
`WAITING` lobby for the contract when it has room, else create a fresh empty
one (with the contract's player bounds and the id the store assigns). -/
def getOrCreateWaitingLobby (w : LobbyWorld) (contractId : String)
    (minP maxP : Nat) (newLobbyId : String) : Lobby × LobbyWorld :=
  match w.lobbies.find? (fun l => l.contractId == contractId && l.status == .waiting) with
  | some l =>
    if l.players.length < l.maxPlayers then (l, w)
    else
      let nl : Lobby := ⟨newLobbyId, contractId, .waiting, minP, maxP, []⟩
      (nl, { w with lobbies := w.lobbies ++ [nl] })
  | none =>
    let nl : Lobby := ⟨newLobbyId, contractId, .waiting, minP, maxP, []⟩
    (nl, { w with lobbies := w.lobbies ++ [nl] })

/-- Embeds `PrismaLobbyRepository.addPlayer`: append the user id to the lobby row. -/
def addPlayerToLobby (w : LobbyWorld) (lobbyId userId : String) : LobbyWorld :=
  { w with lobbies := w.lobbies.map (fun l =>
      if l.id == lobbyId then { l with players := l.players ++ [userId] } else l) }

/-- Embeds `PrismaLobbyRepository.findById` restricted to the fields used. -/
def findLobbyById (w : LobbyWorld) (lobbyId : String) : Option Lobby :=
  w.lobbies.find? (fun l => l.id == lobbyId)

/-- Embeds `JoinLobbyResult`. -/
structure JoinResult where
  lobbyId : String
  position : Nat
  currentPlayers : Nat
  minPlayers : Nat
  maxPlayers : Nat
  isReady : Bool
deriving DecidableEq

/-- Embedding of `JoinLobbyUseCase.execute`: already-in check, contract
lookup, the `userBalance < entryFee` precheck, get-or-create, full check,
add player. Broadcasting carries no lobby state and is omitted. -/
def joinLobbyUseCase (w : LobbyWorld) (userId : String) (userBalance : Int)
    (contractId : String) (newLobbyId : String) :
    Except PlutoErr JoinResult × LobbyWorld :=
  match findLobbyByUserId w userId with
  | some _ => (.error .alreadyInLobby, w)
  | none =>
    match findContractById w.contracts contractId with
    | none => (.error (.contractNotFound contractId), w)
    | some c =>
      if userBalance < c.entryFee then
        (.error (.insufficientFunds c.entryFee userBalance), w)
      else
        let lw := getOrCreateWaitingLobby w contractId c.minPlayers c.maxPlayers newLobbyId
        let lobby := lw.1
        let w1 := lw.2
        if lobby.isFull then (.error .lobbyFull, w1)
        else
          let w2 := addPlayerToLobby w1 lobby.id userId
          let updated := findLobbyById w2 lobby.id
          let currentPlayers := (updated.map (fun l => l.players.length)).getD 1
          let ready := (updated.map Lobby.isReady).getD false
          (.ok { lobbyId := lobby.id, position := currentPlayers,
                 currentPlayers := currentPlayers, minPlayers := c.minPlayers,
                 maxPlayers := c.maxPlayers, isReady := ready }, w2)

/-- The route-layer projection `getUserByFirebaseUid` of the composition
root: it exposes only `{ id, displayName, balance }` — the locked balance is
dropped before the lobby use case ever sees the user. -/
structure AuthUser where
  id : String
  displayName : String
  balance : Int
deriving DecidableEq

/-- Embeds `getUserByFirebaseUid` from the composition root. -/
def getUserByFirebaseUid (users : List User) (uid : String) : Option AuthUser :=
  match users.find? (fun u => u.firebaseUid == uid) with
  | none => none
  | some u => some ⟨u.id, u.displayName, u.balance⟩

/-- The `POST /lobby/join` route (`packages/lobby/src/interface/routes.ts`):
authenticate, then run the use case with `userBalance := user.balance`. -/
def joinLobbyRoute (w : LobbyWorld) (firebaseUid : String)
    (contractId : String) (newLobbyId : String) :
    Except PlutoErr JoinResult × LobbyWorld :=
  match getUserByFirebaseUid w.users firebaseUid with
  | none => (.error .unauthorized, w)
  | some au => joinLobbyUseCase w au.id au.balance contractId newLobbyId

/-! Part 4: session-token codec. -/

/-- The five-field payload `ExecuteContractUseCase` mints into the session
token (`SessionTokenPayload` of the shared types). -/
structure SessionTokenPayloadData where
  sessionId : String
  contractId : String
  playerIds : List String
  totalPot : String
  expiresAt : String
deriving DecidableEq

/-- The decoded token body: the payload spread together with the mint-time
`iat` field (`{ ...payload, iat: Date.now() }`). -/
structure SessionTokenBody where
  payload : SessionTokenPayloadData
  iat : Int
deriving DecidableEq

/-- Embeds `base64url(JSON.stringify({ alg: "HS256", typ: "JWT" }))`, the literal
header segment every minted token starts with. -/
def jwtHeader : List Char := "eyJhbGciOiJIUzI1NiIsInR5cCI6IkpXVCJ9".toList

/-- JS `token.split(".")` over the characters of the token. -/
def splitOnDot : List Char → List (List Char)
  | [] => [[]]
  | c :: cs =>
    if c = '.' then [] :: splitOnDot cs
    else
      match splitOnDot cs with
      | t :: ts => (c :: t) :: ts
      | [] => [[c]]

/-- No character of the segment is a dot (true of every base64url string,
hence of the header, encoded body and MAC tag of a well-formed token). -/
def dotFree (s : List Char) : Bool := ! s.contains '.'

/-- Embedding of `generateSessionToken` from the composition root:
`header.body.tag` where `body` encodes the payload spread with `iat` and
`tag` is the HMAC of `header + "." + body`. The base64url-JSON encoding and
the keyed HMAC-SHA256 are abstracted as the parameters `enc` and `mac`. -/
def generateSessionToken (enc : SessionTokenBody → List Char)
    (mac : List Char → List Char) (payload : SessionTokenPayloadData)
    (now : Int) : List Char :=
  let body := enc ⟨payload, now⟩
  jwtHeader ++ '.' :: body ++ '.' :: mac (jwtHeader ++ '.' :: body)

/-- Embedding of `verifySessionToken`: split on dots, take the first three
segments (destructuring ignores any further segments, exactly as
`const [header, body, signature] = token.split(".")` does), recompute the
MAC over `header + "." + body`, and decode the body iff the tag matches;
any decode failure yields `none` as the source's catch-all returns null. -/
def verifySessionToken (dec : List Char → Option SessionTokenBody)
    (mac : List Char → List Char) (token : List Char) :
    Option SessionTokenBody :=
  match splitOnDot token with
  | header :: body :: signature :: _ =>
    if signature = mac (header ++ '.' :: body) then dec body else none
  | _ => none

/-! Part 5: concrete fixtures used by witnesses and counterexamples. -/

/-- Player A: balance 1000 with the 100-unit entry stake locked. -/
def userA : User := ⟨"A", "fA", "Ann", 1000, 100, 0⟩

/-- Player B: balance 1000 with the 100-unit entry stake locked. -/
def userB : User := ⟨"B", "fB", "Bob", 1000, 100, 0⟩

/-- A 2-player contract with entry fee 100 and platform fee 0 %. -/
def contractZeroFee : Contract := ⟨"c1", "g1", "Dice", "Duel", 100, 0, 2, 2, 300, true, 0⟩

/-- A pending session of `contractZeroFee` holding A's and B's stakes. -/
def sessionAB : GameSession :=
  ⟨"s1", "c1", .pending, 200, 5000, none, [⟨"A", "Ann", 100, false, 0⟩, ⟨"B", "Bob", 100, false, 0⟩]⟩

/-- Bank state with the pending `sessionAB` ready to settle. -/
def stateAB : BankState := ⟨[userA, userB], [contractZeroFee], [sessionAB], []⟩

/-- Player C of the spec's S1 scenario after Execute: balance 1000, locked 100. -/
def userC : User := ⟨"C", "fC", "Cat", 1000, 100, 0⟩

/-- Player D of the spec's S1 scenario after Execute. -/
def userD : User := ⟨"D", "fD", "Dan", 1000, 100, 0⟩

/-- The S1 contract: entry fee 100, platform fee 5 %. -/
def contractFee5 : Contract := ⟨"c5", "g1", "Dice", "Duel5", 100, 5, 2, 2, 300, true, 0⟩

/-- The S1 session: pot 200, players C and D. -/
def sessionCD : GameSession :=
  ⟨"s3", "c5", .pending, 200, 5000, none, [⟨"C", "Cat", 100, false, 0⟩, ⟨"D", "Dan", 100, false, 0⟩]⟩

/-- Bank state for the S1 settle. -/
def stateCD : BankState := ⟨[userC, userD], [contractFee5], [sessionCD], []⟩

/-- An already-settled session. -/
def sessionSettled : GameSession := ⟨"s4", "c1", .settled, 200, 5000, some 900, []⟩

/-- A cancelled session. -/
def sessionCancelled : GameSession := ⟨"s5", "c1", .cancelled, 200, 5000, none, []⟩

/-- Bank state whose only sessions are terminal. -/
def stateTerminal : BankState :=
  ⟨[userA, userB], [contractZeroFee], [sessionSettled, sessionCancelled], []⟩

/-- The S4 user: balance 50, nothing locked. -/
def userPoor : User := ⟨"P", "fP", "Pam", 50, 0, 0⟩

/-- The S4 contract: entry fee 100, active, 1-2 players. -/
def contractS4 : Contract := ⟨"c9", "g1", "Dice", "Blitz", 100, 5, 1, 2, 300, true, 0⟩

/-- Bank state for the S4 Execute attempt. -/
def stateS4 : BankState := ⟨[userPoor], [contractS4], [], []⟩

/-- A user whose whole balance is locked: total 100, locked 100, available 0. -/
def userLocked : User := ⟨"L", "fL", "Lee", 100, 100, 0⟩

/-- Lobby world for the join counterexample: no lobbies, `userLocked`, and
the entry-fee-100 contract. -/
def lobbyWorldLocked : LobbyWorld := ⟨[], [userLocked], [contractS4]⟩

/-- Lobby world for the join witness: no lobbies, `userPoor` (balance 50). -/
def lobbyWorldPoor : LobbyWorld := ⟨[], [userPoor], [contractS4]⟩

/-- A concrete session-token payload. -/
def demoPayload : SessionTokenPayloadData := ⟨"s1", "c1", ["A", "B"], "200", "t0"⟩

/-- Embeds `demoPayload` spread with `iat = 7`. -/
def demoBody : SessionTokenBody := ⟨demoPayload, 7⟩

/-- A concrete body encoder standing in for base64url-JSON at `demoBody`. -/
def demoEnc : SessionTokenBody → List Char := fun _ => ['B']

/-- The matching decoder: inverts `demoEnc` on its image. -/
def demoDec : List Char → Option SessionTokenBody :=
  fun s => if s = ['B'] then some demoBody else none

/-- A concrete deterministic MAC: tag `M` for the genuine signing input,
`N` for anything else. -/
def demoMac : List Char → List Char :=
  fun m => if m = jwtHeader ++ '.' :: ['B'] then ['M'] else ['N']

/-! Part 6: theorems. -/

lemma tdiv_ofNat (a c : Nat) : ((a : Int)).tdiv (c : Int) = ((a / c : Nat) : Int) := rfl

lemma tmod_ofNat (a c : Nat) : ((a : Int)).tmod (c : Int) = ((a % c : Nat) : Int) := rfl

lemma sum_range_ite_lt (b : Int) (r : Nat) :
    ∀ c : Nat,
      (((List.range c).map (fun (i : Nat) => if (i : Int) < (r : Int) then b + 1 else b)).sum
        = c * b + min r c)
  | 0 => by simp
  | c + 1 => by
      rw [List.range_succ, List.map_append, List.sum_append, sum_range_ite_lt b r c]
      by_cases hc : c < r
      · have h1 : (c : Int) < (r : Int) := by exact_mod_cast hc
        have h2 : min r c = c := by omega
        have h3 : min r (c + 1) = c + 1 := by omega
        simp only [List.map_cons, List.map_nil, List.sum_cons, List.sum_nil, if_pos h1, h2, h3]
        push_cast
        ring
      · have h1 : ¬ ((c : Int) < (r : Int)) := by exact_mod_cast hc
        have h2 : min r c = r := by omega
        have h3 : min r (c + 1) = r := by omega
        simp only [List.map_cons, List.map_nil, List.sum_cons, List.sum_nil, if_neg h1, h2, h3]
        push_cast
        ring

lemma distributeEvenly_mem (a : Int) (c : Nat) (x : Int) (hx : x ∈ distributeEvenly a c) :
    x = a.tdiv c ∨ x = a.tdiv c + 1 := by
  unfold distributeEvenly at hx
  by_cases h : c = 0
  · simp [h] at hx
  · simp only [if_neg h, List.mem_map, List.mem_range] at hx
    obtain ⟨i, _, hi⟩ := hx
    by_cases hlt : (i : Int) < a.tmod c
    · right; rw [← hi, if_pos hlt]
    · left; rw [← hi, if_neg hlt]

/-- Claim C4: for a non-negative prize pool `a` and a non-empty winner count `c`
(no explicit winAmounts), `distributeEvenly` gives each winner `a / c` rounded
down, with the first `a % c` winners receiving one extra unit; the amounts sum
to exactly `a`, and any two per-winner amounts differ by at most 1. -/
theorem distributeEvenly_default_distribution (a c : Nat) (hc : 0 < c) :
    (distributeEvenly (a : Int) c).length = c ∧
    (∀ i, i < c →
      (distributeEvenly (a : Int) c).getD i 0 =
        if i < a % c then ((a / c : Nat) : Int) + 1 else ((a / c : Nat) : Int)) ∧
    (distributeEvenly (a : Int) c).sum = (a : Int) ∧
    (∀ x ∈ distributeEvenly (a : Int) c, ∀ y ∈ distributeEvenly (a : Int) c, x - y ≤ 1) := by
  have hc' : c ≠ 0 := hc.ne'
  refine ⟨?_, ?_, ?_, ?_⟩
  · simp [distributeEvenly, if_neg hc']
  · intro i hi
    unfold distributeEvenly
    rw [if_neg hc', tdiv_ofNat, tmod_ofNat]
    rw [List.getD_eq_getElem?_getD, List.getElem?_map, List.getElem?_range hi]
    simp only [Option.map_some', Option.getD_some]
    by_cases hlt : i < a % c
    · rw [if_pos (by exact_mod_cast hlt), if_pos hlt]
    · rw [if_neg (by exact_mod_cast hlt), if_neg hlt]
  · unfold distributeEvenly
    rw [if_neg hc', tdiv_ofNat, tmod_ofNat]
    rw [sum_range_ite_lt]
    have hmod : a % c < c := Nat.mod_lt _ hc
    have : min (a % c) c = a % c := by omega
    rw [this]
    exact_mod_cast Nat.div_add_mod a c
  · intro x hx y hy
    rcases distributeEvenly_mem _ _ _ hx with h1 | h1 <;>
      rcases distributeEvenly_mem _ _ _ hy with h2 | h2 <;> omega

/-- Witness for C4 at the spec's S5 inputs: prizePool 1000 split among 3
winners sums to 1000 and the first share is 334. -/
theorem distributeEvenly_default_distribution_witness :
    (distributeEvenly ((1000 : Nat) : Int) 3).sum = ((1000 : Nat) : Int) ∧
    (distributeEvenly ((1000 : Nat) : Int) 3).getD 0 0 = ((1000 / 3 : Nat) : Int) + 1 := by
  have h := distributeEvenly_default_distribution 1000 3 (by decide)
  exact ⟨h.2.2.1, by rw [h.2.1 0 (by decide), if_pos (by decide)]⟩

/-- Claim C5: for every non-negative `totalPot` and any percentage the
contract carries, the platform fee is `floor(totalPot * platformFee / 100)`
(expressed through rounding-down natural division), the prize pool is
`totalPot - platformFee`, and `platformFee + prizePool = totalPot` exactly. -/
theorem contract_fee_floor_and_complement (c : Contract) (p : Nat) :
    c.calculatePlatformFee (p : Int) = ((p * c.platformFee / 100 : Nat) : Int) ∧
    c.calculatePrizePool (p : Int) = (p : Int) - c.calculatePlatformFee (p : Int) ∧
    c.calculatePlatformFee (p : Int) + c.calculatePrizePool (p : Int) = (p : Int) := by
  refine ⟨?_, rfl, ?_⟩
  · have h : (p : Int) * (c.platformFee : Nat) = ((p * c.platformFee : Nat) : Int) := by
      push_cast; ring
    rw [Contract.calculatePlatformFee, h]
    exact tdiv_ofNat (p * c.platformFee) 100
  · rw [Contract.calculatePrizePool]; ring

/-- Claim C10: from any user state satisfying the balance invariant and any
non-negative amount, each balance-mutating operation either fails (the
embedding returns `.error`, the state unchanged) or succeeds in a state that
satisfies the invariant again; hence a write that would violate the
invariant never commits. -/
theorem user_balance_ops_preserve_invariant (u : User) (a : Int)
    (hu : UserInvariant u) (ha : 0 ≤ a) :
    ExceptInv (u.lockFunds a) ∧ ExceptInv (u.unlockFunds a) ∧
    ExceptInv (u.deductLockedFunds a) ∧ UserInvariant (u.addWinnings a) ∧
    ExceptInv (u.deposit a) ∧ ExceptInv (u.withdraw a) := by
  obtain ⟨h1, h2, h3⟩ := hu
  refine ⟨?_, ?_, ?_, ?_, ?_, ?_⟩
  · by_cases h : u.canAfford a = false
    · simp [User.lockFunds, h, ExceptInv]
    · simp only [User.canAfford, User.availableBalance,
        decide_eq_false_iff_not, not_not] at h
      simp [User.lockFunds, User.canAfford, User.availableBalance, h,
        ExceptInv, UserInvariant]
      omega
  · by_cases h : a > u.lockedBalance
    · simp [User.unlockFunds, h, ExceptInv]
    · simp [User.unlockFunds, h, ExceptInv, UserInvariant]
      omega
  · by_cases h : a > u.lockedBalance
    · simp [User.deductLockedFunds, h, ExceptInv]
    · simp [User.deductLockedFunds, h, ExceptInv, UserInvariant]
      omega
  · simp [User.addWinnings, UserInvariant]
    omega
  · by_cases h : a ≤ 0
    · simp [User.deposit, h, ExceptInv]
    · simp [User.deposit, h, ExceptInv, UserInvariant]
      omega
  · by_cases h : u.canAfford a = false
    · simp [User.withdraw, h, ExceptInv]
    · simp only [User.canAfford, User.availableBalance,
        decide_eq_false_iff_not, not_not] at h
      simp [User.withdraw, User.canAfford, User.availableBalance, h,
        ExceptInv, UserInvariant]
      omega

/-- Witness for C10 at a concrete state: balance 10, locked 5, amount 3. -/
theorem user_balance_ops_witness :
    ExceptInv (User.lockFunds ⟨"u1", "f1", "Ann", 10, 5, 0⟩ 3) ∧
    ExceptInv (User.unlockFunds ⟨"u1", "f1", "Ann", 10, 5, 0⟩ 3) ∧
    ExceptInv (User.deductLockedFunds ⟨"u1", "f1", "Ann", 10, 5, 0⟩ 3) ∧
    UserInvariant (User.addWinnings ⟨"u1", "f1", "Ann", 10, 5, 0⟩ 3) ∧
    ExceptInv (User.deposit ⟨"u1", "f1", "Ann", 10, 5, 0⟩ 3) ∧
    ExceptInv (User.withdraw ⟨"u1", "f1", "Ann", 10, 5, 0⟩ 3) :=
  user_balance_ops_preserve_invariant ⟨"u1", "f1", "Ann", 10, 5, 0⟩ 3
    (by decide) (by decide)

/-- Claim C1 (amended): Settle performs no validation on explicit
`winAmount`s. Whatever amounts the results carry — summing to the prize
pool or not — the call succeeds and pays each winner exactly the explicit
amount. -/
theorem settle_explicit_amounts_not_validated (w1 w2 : Int) :
    (settleContract stateAB 1000 (some "s1")
      [⟨"A", true, some w1⟩, ⟨"B", true, some w2⟩]).1 =
      .ok ⟨"s1", [⟨"A", "Ann", w1⟩, ⟨"B", "Bob", w2⟩], 0⟩ := rfl

/-- Counterexample to claim C1 as stated: explicit winAmounts `150 + 150`
differ from the prize pool `200`, yet Settle succeeds instead of failing
with a ValidationError. -/
theorem settle_explicit_sum_mismatch_accepted :
    (settleContract stateAB 1000 (some "s1")
      [⟨"A", true, some 150⟩, ⟨"B", true, some 150⟩]).1 =
      .ok ⟨"s1", [⟨"A", "Ann", 150⟩, ⟨"B", "Bob", 150⟩], 0⟩ ∧
    (150 + 150 : Int) ≠ contractZeroFee.calculatePrizePool sessionAB.totalPot :=
  ⟨rfl, by decide⟩

/-- Counterexample to claim C2 as stated: the results list carries the extra
player `G` who is not in the session, yet Settle succeeds (and the extra
winner silently dilutes the default split) instead of failing a set-equality
validation. -/
theorem settle_extra_player_accepted :
    (settleContract stateAB 1000 (some "s1")
      [⟨"A", true, none⟩, ⟨"B", false, none⟩, ⟨"G", true, none⟩]).1 =
      .ok ⟨"s1", [⟨"A", "Ann", 100⟩], 0⟩ ∧
    (sessionAB.players.map (fun p => p.userId)).contains "G" = false :=
  ⟨rfl, rfl⟩

/-- Claim C2 (amended): Settle validates coverage in one direction only —
whenever some session player is missing from the results (here `pid`, the
first such), the call fails with a ValidationError naming that player and
leaves the state untouched; extra playerIds are not rejected. -/
theorem settle_rejects_missing_session_player
    (st : BankState) (now : Int) (sid : String) (results : List PlayerResult)
    (session : GameSession) (pid : String)
    (hfind : findSessionById st.sessions sid = some session)
    (hs : session.status = .pending ∨ session.status = .active)
    (hexp : session.isExpired now = false)
    (hmiss : (session.players.map (fun p => p.userId)).find?
        (fun q => ! (results.map (fun r => r.playerId)).contains q) = some pid) :
    settleContract st now (some sid) results =
      (.error (.validationError ("Missing result for player " ++ pid)), st) := by
  have hguard : settleContract st now (some sid) results
      = settleValidated st now session results := by
    unfold settleContract
    rcases hs with h | h <;> simp [hfind, h, hexp]
  rw [hguard]
  unfold settleValidated
  simp only [hmiss]

/-- Witness for the amended C2: player B of `sessionAB` is omitted from the
results, so Settle fails with the missing-player validation error and the
state is unchanged. -/
theorem settle_rejects_missing_session_player_witness :
    settleContract stateAB 1000 (some "s1") [⟨"A", true, none⟩] =
      (.error (.validationError ("Missing result for player " ++ "B")), stateAB) :=
  settle_rejects_missing_session_player stateAB 1000 "s1" [⟨"A", true, none⟩]
    sessionAB "B" rfl (Or.inl rfl) rfl rfl

/-- Claim C6 (amended): Settle on a SETTLED session fails with
AlreadySettled, on a CANCELLED or EXPIRED session with a ValidationError
(the source has no InvalidState error), and on a live session past its
expiry with SessionExpired; in each case the returned state is exactly the
input state — no ledger rows, no balance changes. -/
theorem settle_terminal_and_expiry_guards
    (st : BankState) (now : Int) (sid : String) (results : List PlayerResult)
    (session : GameSession)
    (hfind : findSessionById st.sessions sid = some session) :
    (session.status = .settled →
      settleContract st now (some sid) results =
        (.error (.sessionAlreadySettled session.id), st)) ∧
    (session.status = .cancelled →
      settleContract st now (some sid) results =
        (.error (.validationError "Session is cancelled"), st)) ∧
    (session.status = .expired →
      settleContract st now (some sid) results =
        (.error (.validationError "Session is expired"), st)) ∧
    ((session.status = .pending ∨ session.status = .active) →
      session.isExpired now = true →
      settleContract st now (some sid) results =
        (.error (.sessionExpired session.id), st)) := by
  refine ⟨?_, ?_, ?_, ?_⟩
  · intro h
    unfold settleContract
    simp [hfind, h]
  · intro h
    unfold settleContract
    simp [hfind, h]
  · intro h
    unfold settleContract
    simp [hfind, h]
  · rintro (h | h) hexp <;>
      · unfold settleContract
        simp [hfind, h, hexp]

/-- Witness for the amended C6: a second Settle of the already-settled
session `s4` surfaces AlreadySettled with the state unchanged. -/
theorem settle_terminal_guards_witness :
    settleContract stateTerminal 1000 (some "s4") [] =
      (.error (.sessionAlreadySettled "s4"), stateTerminal) :=
  (settle_terminal_and_expiry_guards stateTerminal 1000 "s4" [] sessionSettled rfl).1 rfl

/-- Counterexample to claim C6 as stated: Settle on the CANCELLED session
`s5` fails with a ValidationError whose code is VALIDATION_ERROR — not with
an InvalidState error (code INVALID_STATE), which does not exist in the
source's taxonomy. -/
theorem settle_cancelled_yields_validation_error :
    settleContract stateTerminal 1000 (some "s5") [] =
      (.error (.validationError "Session is cancelled"), stateTerminal) ∧
    PlutoErr.code (.validationError "Session is cancelled") = "VALIDATION_ERROR" ∧
    "VALIDATION_ERROR" ≠ "INVALID_STATE" :=
  ⟨rfl, rfl, by decide⟩

lemma settleUsers_entry_types (session : GameSession) (wd : List WinnerShare) :
    ∀ (us us1 : List User) (es : List LedgerEntry) (ws : List SettledWinner),
      settleUsers session wd us = .ok (us1, es, ws) →
      ∀ e ∈ es, e.type = .lose ∨ e.type = .win := by
  intro us
  induction us with
  | nil =>
    intro us1 es ws h e he
    simp only [settleUsers] at h
    cases h
    simp at he
  | cons u rest ih =>
    intro us1 es ws h e he
    simp only [settleUsers] at h
    split at h
    · exact absurd h (by simp)
    · split at h
      · exact absurd h (by simp)
      · split at h
        · split at h
          · exact absurd h (by simp)
          · rename_i heq3
            cases h
            rcases List.mem_cons.mp he with he | he
            · subst he; left; rfl
            · rcases List.mem_cons.mp he with he | he
              · subst he; right; rfl
              · exact ih _ _ _ heq3 e he
        · split at h
          · exact absurd h (by simp)
          · rename_i heq3
            cases h
            rcases List.mem_cons.mp he with he | he
            · subst he; left; rfl
            · exact ih _ _ _ heq3 e he

lemma settleValidated_ledger (st : BankState) (now : Int)
    (session : GameSession) (results : List PlayerResult)
    (r : SettleResult) (st1 : BankState)
    (h : settleValidated st now session results = (.ok r, st1)) :
    ∃ entries, st1.ledger = st.ledger ++ entries ∧
      ∀ e ∈ entries, e.type = .lose ∨ e.type = .win := by
  unfold settleValidated at h
  simp only [] at h
  repeat' split at h
  all_goals try simp only [Prod.mk.injEq, reduceCtorEq, false_and] at h
  rename_i us2 es2 ws2 heq2
  obtain ⟨hr, hst⟩ := h
  subst hst
  refine ⟨es2, rfl, ?_⟩
  exact settleUsers_entry_types session _ _ _ _ _ heq2

/-- Claim C3 (amended): a successful Settle appends only per-player LOSE and
WIN ledger rows — no FEE row is ever appended; the FEE-typed part of the
ledger is exactly what it was before the call (the platform fee is merely
computed and reported in the result). -/
theorem settle_success_appends_only_lose_win
    (st : BankState) (now : Int) (payload : Option String)
    (results : List PlayerResult) (r : SettleResult)
    (h : (settleContract st now payload results).1 = .ok r) :
    (settleContract st now payload results).2.ledger.filter (fun e => e.type == .fee)
      = st.ledger.filter (fun e => e.type == .fee) := by
  rcases hsc : settleContract st now payload results with ⟨res, st1⟩
  rw [hsc] at h
  obtain rfl : res = .ok r := h
  unfold settleContract at hsc
  repeat' split at hsc
  all_goals try simp only [Prod.mk.injEq, reduceCtorEq, false_and] at hsc
  obtain ⟨entries, hled, htypes⟩ :=
    settleValidated_ledger st now _ results r st1 hsc
  rw [hled, List.filter_append]
  have hnil : entries.filter (fun e => e.type == .fee) = [] := by
    rw [List.filter_eq_nil_iff]
    intro e he
    rcases htypes e he with h1 | h1 <;> simp [h1]
  rw [hnil, List.append_nil]

/-- Witness for the amended C3: the concrete settle of `sessionAB` succeeds
and leaves the FEE-typed ledger slice unchanged (empty). -/
theorem settle_success_appends_only_lose_win_witness :
    (settleContract stateAB 1000 (some "s1")
      [⟨"A", true, none⟩, ⟨"B", false, none⟩]).2.ledger.filter
        (fun e => e.type == .fee)
      = stateAB.ledger.filter (fun e => e.type == .fee) :=
  settle_success_appends_only_lose_win stateAB 1000 (some "s1")
    [⟨"A", true, none⟩, ⟨"B", false, none⟩] ⟨"s1", [⟨"A", "Ann", 200⟩], 0⟩ rfl

/-- Counterexample to claim C3 as stated: the S1 settle (pot 200, platform
fee 5 %) succeeds reporting `platformFeeCollected = 10`, yet the resulting
ledger holds exactly three rows — LOSE(C), WIN(C), LOSE(D) — and no FEE
entry at all. -/
theorem settle_s1_has_no_fee_ledger_entry :
    (settleContract stateCD 1000 (some "s3")
      [⟨"C", true, none⟩, ⟨"D", false, none⟩]).1 =
      .ok ⟨"s3", [⟨"C", "Cat", 190⟩], 10⟩ ∧
    ((settleContract stateCD 1000 (some "s3")
      [⟨"C", true, none⟩, ⟨"D", false, none⟩]).2.ledger.map
        (fun e => e.type)) = [.lose, .win, .lose] ∧
    contractFee5.calculatePlatformFee sessionCD.totalPot = 10 :=
  ⟨rfl, rfl, rfl⟩

lemma findByFirebaseUids_length_ne (users : List User) (uids : List String)
    (hn : (users.map User.firebaseUid).Nodup) (hd : ¬ uids.Nodup) :
    (findByFirebaseUids users uids).length ≠ uids.length := by
  intro hlen
  have hsubl : ((findByFirebaseUids users uids).map User.firebaseUid).Sublist
      (users.map User.firebaseUid) :=
    (List.filter_sublist users).map User.firebaseUid
  have hnodup : ((findByFirebaseUids users uids).map User.firebaseUid).Nodup :=
    hn.sublist hsubl
  have hmem : ∀ x ∈ (findByFirebaseUids users uids).map User.firebaseUid, x ∈ uids := by
    intro x hx
    obtain ⟨u, hu, rfl⟩ := List.mem_map.mp hx
    have hc := List.of_mem_filter hu
    simpa using hc
  have hcard1 : ((findByFirebaseUids users uids).map User.firebaseUid).toFinset.card
      = (findByFirebaseUids users uids).length := by
    rw [List.toFinset_card_of_nodup hnodup, List.length_map]
  have hsub2 : ((findByFirebaseUids users uids).map User.firebaseUid).toFinset
      ⊆ uids.toFinset := by
    intro x hx
    rw [List.mem_toFinset] at hx ⊢
    exact hmem x hx
  have hcard2 : uids.toFinset.card < uids.length := by
    rw [List.card_toFinset]
    refine lt_of_le_of_ne (List.dedup_sublist uids).length_le ?_
    intro he
    exact hd (List.dedup_eq_self.mp ((List.dedup_sublist uids).eq_of_length he))
  have hle := Finset.card_le_card hsub2
  omega

lemma executeValidated_state_on_error (st : BankState) (now : Int)
    (nsid : String) (contract : Contract) (users : List User) (e : PlutoErr)
    (h : (executeValidated st now nsid contract users).1 = .error e) :
    (executeValidated st now nsid contract users).2 = st := by
  rcases hx : executeValidated st now nsid contract users with ⟨res, st1⟩
  rw [hx] at h
  obtain rfl : res = .error e := h
  unfold executeValidated at hx
  simp only [] at hx
  split at hx
  · simp only [Prod.mk.injEq] at hx
    exact hx.2.symm
  · simp only [Prod.mk.injEq, reduceCtorEq, false_and] at hx

/-- Claim C7: every Execute precondition failure — missing contract,
inactive contract, invalid player count, unresolved or duplicate external
ids, or a user who cannot afford the entry fee — produces the corresponding
error (ContractNotFound, GameNotActive, ValidationError, InsufficientFunds
carrying required and available) with the state returned exactly as it was:
no session, no balance change, no ledger rows; and every error outcome
whatsoever leaves the state unchanged. -/
theorem execute_precondition_failures
    (st : BankState) (now : Int) (nsid cid : String) (uids : List String) :
    (findContractById st.contracts cid = none →
      executeContract st now nsid cid uids = (.error (.contractNotFound cid), st)) ∧
    (∀ ctr, findContractById st.contracts cid = some ctr → ctr.isActive = false →
      executeContract st now nsid cid uids = (.error .gameNotActive, st)) ∧
    (∀ ctr, findContractById st.contracts cid = some ctr → ctr.isActive = true →
      ctr.isValidPlayerCount uids.length = false →
      executeContract st now nsid cid uids =
        (.error (.validationError "Invalid player count"), st)) ∧
    (∀ ctr, findContractById st.contracts cid = some ctr → ctr.isActive = true →
      ctr.isValidPlayerCount uids.length = true →
      (findByFirebaseUids st.users uids).length ≠ uids.length →
      executeContract st now nsid cid uids =
        (.error (.validationError "Users not found"), st)) ∧
    ((st.users.map User.firebaseUid).Nodup → ¬ uids.Nodup →
      (findByFirebaseUids st.users uids).length ≠ uids.length) ∧
    (∀ ctr u, findContractById st.contracts cid = some ctr → ctr.isActive = true →
      ctr.isValidPlayerCount uids.length = true →
      (findByFirebaseUids st.users uids).length = uids.length →
      (findByFirebaseUids st.users uids).find?
        (fun v => ! v.canAfford ctr.entryFee) = some u →
      executeContract st now nsid cid uids =
        (.error (.insufficientFunds ctr.entryFee u.availableBalance), st)) ∧
    (∀ e, (executeContract st now nsid cid uids).1 = .error e →
      (executeContract st now nsid cid uids).2 = st) := by
  refine ⟨?_, ?_, ?_, ?_, ?_, ?_, ?_⟩
  · intro h
    unfold executeContract
    simp [h]
  · intro ctr hf ha
    unfold executeContract
    simp [hf, ha]
  · intro ctr hf ha hv
    unfold executeContract
    simp [hf, ha, hv]
  · intro ctr hf ha hv hlen
    unfold executeContract
    simp [hf, ha, hv, hlen]
  · exact fun hn hd => findByFirebaseUids_length_ne st.users uids hn hd
  · intro ctr u hf ha hv hlen hfind
    unfold executeContract
    simp [hf, ha, hv, hlen, hfind]
  · intro e h
    rcases hx : executeContract st now nsid cid uids with ⟨res, st1⟩
    rw [hx] at h
    obtain rfl : res = .error e := h
    unfold executeContract at hx
    simp only [] at hx
    repeat' split at hx
    all_goals first
    | (simp only [Prod.mk.injEq] at hx
       exact hx.2.symm)
    | (have h1 := congrArg Prod.fst hx
       have h2 := congrArg Prod.snd hx
       exact h2.symm.trans (executeValidated_state_on_error st now nsid _ _ e h1))

/-- Witness for C7 at the spec's S4 scenario: Pam has balance 50, the entry
fee is 100, so Execute fails with InsufficientFunds carrying required 100
and available 50, and the state is unchanged. -/
theorem execute_insufficient_funds_witness :
    executeContract stateS4 0 "sx" "c9" ["fP"] =
      (.error (.insufficientFunds 100 50), stateS4) :=
  (execute_precondition_failures stateS4 0 "sx" "c9" ["fP"]).2.2.2.2.2.1
    contractS4 userPoor rfl rfl rfl rfl rfl

lemma joinLobbyUseCase_users_unchanged (w : LobbyWorld) (userId : String)
    (bal : Int) (cid nlid : String) :
    (joinLobbyUseCase w userId bal cid nlid).2.users = w.users := by
  unfold joinLobbyUseCase getOrCreateWaitingLobby addPlayerToLobby
  simp only []
  repeat' split
  all_goals rfl

lemma joinLobbyRoute_users_unchanged (w : LobbyWorld) (uid cid nlid : String) :
    (joinLobbyRoute w uid cid nlid).2.users = w.users := by
  unfold joinLobbyRoute
  split
  · rfl
  · exact joinLobbyUseCase_users_unchanged w _ _ cid nlid

/-- Claim C9 (amended): the Join precheck compares the user's TOTAL balance
against the entry fee — the route projection passes `user.balance` and the
locked balance never reaches the use case. With the user in no lobby and the
contract found, a total balance below the entry fee is rejected with
InsufficientFunds carrying (entryFee, totalBalance); and in every outcome
the user store is untouched, so Join locks no funds. -/
theorem join_precheck_uses_total_balance
    (w : LobbyWorld) (uid cid nlid : String) (au : AuthUser) (c : Contract)
    (hau : getUserByFirebaseUid w.users uid = some au)
    (hlob : findLobbyByUserId w au.id = none)
    (hc : findContractById w.contracts cid = some c) :
    (au.balance < c.entryFee →
      joinLobbyRoute w uid cid nlid =
        (.error (.insufficientFunds c.entryFee au.balance), w)) ∧
    (joinLobbyRoute w uid cid nlid).2.users = w.users := by
  constructor
  · intro hlt
    unfold joinLobbyRoute joinLobbyUseCase
    simp [hau, hlob, hc, hlt]
  · exact joinLobbyRoute_users_unchanged w uid cid nlid

/-- Witness for the amended C9: Pam's total balance 50 is below the entry
fee 100, so the join is rejected with InsufficientFunds (100, 50) and no
state changes. -/
theorem join_insufficient_funds_witness :
    joinLobbyRoute lobbyWorldPoor "fP" "c9" "lob1" =
      (.error (.insufficientFunds 100 50), lobbyWorldPoor) :=
  (join_precheck_uses_total_balance lobbyWorldPoor "fP" "c9" "lob1"
    ⟨"P", "Pam", 50⟩ contractS4 rfl rfl rfl).1 (by decide)

/-- Counterexample to claim C9 as stated: Lee's available balance is 0
(total 100, locked 100), strictly below the entry fee 100, yet Join
succeeds — the precheck uses the total balance, not
`balance - lockedBalance` — and no funds are locked by the join. -/
theorem join_succeeds_despite_insufficient_available :
    (joinLobbyRoute lobbyWorldLocked "fL" "c9" "lob1").1 =
      .ok ⟨"lob1", 1, 1, 1, 2, true⟩ ∧
    userLocked.availableBalance < contractS4.entryFee ∧
    (joinLobbyRoute lobbyWorldLocked "fL" "c9" "lob1").2.users = [userLocked] :=
  ⟨rfl, by decide, rfl⟩

lemma splitOnDot_cons (c : Char) (cs : List Char) :
    splitOnDot (c :: cs) = if c = '.' then [] :: splitOnDot cs
      else match splitOnDot cs with
        | t :: ts => (c :: t) :: ts
        | [] => [[c]] := rfl

lemma splitOnDot_of_dotFree (s : List Char) (hs : dotFree s = true) :
    splitOnDot s = [s] := by
  induction s with
  | nil => rfl
  | cons c cs ih =>
    simp only [dotFree, List.contains_cons, Bool.not_or, Bool.and_eq_true,
      Bool.not_eq_true', beq_eq_false_iff_ne, ne_eq] at hs
    rw [splitOnDot_cons]
    rw [if_neg (fun hc => hs.1 hc.symm)]
    rw [ih (by unfold dotFree; rw [hs.2]; rfl)]

lemma splitOnDot_append (h : List Char) (hh : dotFree h = true)
    (rest : List Char) : splitOnDot (h ++ '.' :: rest) = h :: splitOnDot rest := by
  induction h with
  | nil => simp [splitOnDot]
  | cons c cs ih =>
    simp only [dotFree, List.contains_cons, Bool.not_or, Bool.and_eq_true,
      Bool.not_eq_true', beq_eq_false_iff_ne, ne_eq] at hh
    rw [List.cons_append, splitOnDot_cons]
    rw [if_neg (fun hc => hh.1 hc.symm)]
    rw [ih (by unfold dotFree; rw [hh.2]; rfl)]

/-- Claim C8 (amended): verifying a minted token returns the payload spread
with the mint-time `iat` (not the bare payload); and any change confined to
the three dot-separated segments that breaks the tag-MAC correspondence —
any new tag value, or any new header/body on which the MAC does not collide
with the old tag — makes verification return nothing. (Appending a further
dot-separated segment is NOT detected; see the counterexample.) The body
encoding and the keyed MAC are abstracted as `enc`/`dec`/`mac`. -/
theorem token_roundtrip_and_in_segment_tamper
    (enc : SessionTokenBody → List Char) (dec : List Char → Option SessionTokenBody)
    (mac : List Char → List Char) (payload : SessionTokenPayloadData) (now : Int)
    (hdec : dec (enc ⟨payload, now⟩) = some ⟨payload, now⟩)
    (hb : dotFree (enc ⟨payload, now⟩) = true)
    (hm : dotFree (mac (jwtHeader ++ '.' :: enc ⟨payload, now⟩)) = true) :
    verifySessionToken dec mac (generateSessionToken enc mac payload now)
      = some ⟨payload, now⟩ ∧
    (∀ h2 b2 s2 : List Char, dotFree h2 = true → dotFree b2 = true →
      dotFree s2 = true → s2 ≠ mac (h2 ++ '.' :: b2) →
      verifySessionToken dec mac (h2 ++ '.' :: b2 ++ '.' :: s2) = none) := by
  constructor
  · unfold generateSessionToken verifySessionToken
    simp only []
    rw [List.append_assoc, List.cons_append]
    rw [splitOnDot_append jwtHeader (by decide),
        splitOnDot_append _ hb, splitOnDot_of_dotFree _ hm]
    simp [hdec]
  · intro h2 b2 s2 hh2 hb2 hs2 hne
    unfold verifySessionToken
    rw [List.append_assoc, List.cons_append]
    rw [splitOnDot_append h2 hh2, splitOnDot_append b2 hb2,
        splitOnDot_of_dotFree s2 hs2]
    simp [hne]

/-- Witness for the amended C8 at the concrete demo codec: the round trip
yields the body (payload plus `iat = 7`), and a token whose header was
changed to `X` (so the recomputed MAC no longer matches the tag) fails to
verify. -/
theorem token_roundtrip_witness :
    verifySessionToken demoDec demoMac
      (generateSessionToken demoEnc demoMac demoPayload 7) = some demoBody ∧
    verifySessionToken demoDec demoMac (['X'] ++ '.' :: ['B'] ++ '.' :: ['M'])
      = none := by
  have h := token_roundtrip_and_in_segment_tamper demoEnc demoDec demoMac
    demoPayload 7 rfl rfl (by decide)
  exact ⟨h.1, h.2 ['X'] ['B'] ['M'] (by decide) (by decide) (by decide) (by decide)⟩

/-- Counterexample to claim C8 as stated: appending the bytes `.x` to a
minted token — tampering by appending — leaves verification SUCCEEDING with
the original payload, because the verifier destructures only the first three
dot-separated segments; and the returned body moreover carries the extra
`iat` field rather than being exactly the minted payload. -/
theorem token_append_segment_still_verifies :
    verifySessionToken demoDec demoMac
      (generateSessionToken demoEnc demoMac demoPayload 7 ++ '.' :: ['x'])
      = some demoBody :=
  rfl

end Pluto
